import Mathlib

/-!
Verification of the memora social-media ingestion and retrieval pipeline.

The Python sources are embedded shallowly: pure helpers become Lean
functions, the stateful ingestion job becomes an explicit state-passing
function over a job state, and every external effect (zip extraction,
model inference, LLM calls) is an oracle parameter supplied through a
world record. File-system paths are represented by their component
lists, as produced by pathlib `Path.parts`.
-/

set_option maxRecDepth 4096

/-! ## Python character predicates

CPython string predicates `str.isalpha` / `str.isdigit` / `str.isnumeric`
are Unicode-aware. We model them for code points below 0x100 (ASCII plus
the Latin-1 supplement); every character appearing in this development
lies in that range. The Latin-1 tables below were taken from the Unicode
character database: alphabetic characters are the ASCII letters plus
U+00AA, U+00B5, U+00BA and U+00C0..U+00FF without U+00D7 and U+00F7;
digit characters are the ASCII digits plus U+00B2, U+00B3, U+00B9;
numeric characters additionally include U+00BC, U+00BD, U+00BE. -/

/-- Models CPython `str.isalpha` on the Latin-1 range. -/
def pyIsAlpha (c : Char) : Bool :=
  c.isAlpha ||
  c.toNat == 0xAA || c.toNat == 0xB5 || c.toNat == 0xBA ||
  (0xC0 ≤ c.toNat && c.toNat ≤ 0xFF && c.toNat != 0xD7 && c.toNat != 0xF7)

/-- Models CPython `str.isdigit` on the Latin-1 range (per character). -/
def pyIsDigitChar (c : Char) : Bool :=
  c.isDigit || c.toNat == 0xB2 || c.toNat == 0xB3 || c.toNat == 0xB9

/-- Models CPython `str.isnumeric` on the Latin-1 range (per character). -/
def pyIsNumericChar (c : Char) : Bool :=
  pyIsDigitChar c || c.toNat == 0xBC || c.toNat == 0xBD || c.toNat == 0xBE

/-- Models CPython `str.isalnum` on the Latin-1 range (per character):
alphabetic, decimal, digit or numeric. -/
def pyIsAlnum (c : Char) : Bool :=
  pyIsAlpha c || pyIsNumericChar c

/-- Models CPython `str.isdigit` on a whole string: non-empty and every
character a digit. Used by `save_media_data` for the 6-digit time bucket. -/
def pyStrIsDigit (s : String) : Bool :=
  s ≠ "" && s.toList.all pyIsDigitChar

/-- The ASCII-identifier shape `^[A-Za-z][A-Za-z0-9_]*$` claimed by the
specification for sanitized table names, as a decidable predicate. -/
def matchesAsciiIdent (s : String) : Bool :=
  match s.toList with
  | [] => false
  | c :: cs => c.isAlpha && cs.all (fun d => d.isAlphanum || d == '_')

/-- A string whose characters are all ASCII. -/
def allAscii (s : String) : Bool :=
  s.toList.all (fun c => c.toNat < 128)

/-! ## DatabaseHandler (src/app/utils/db_handler.py)

File-system paths appear here as their pathlib component lists
(`Path.parts`). `os.path.relpath` itself (an OS primitive) is not
modelled: `get_table_name_from_path` receives the component list of the
already-computed relative path and models everything from
`Path(rel_path).with_suffix('').parts` onwards. -/

namespace DatabaseHandler

/-- The attribute names defined on the Python class `DatabaseHandler`
(its eight static methods, in source order). Attribute access on the
class succeeds exactly for these names; any other name raises
`AttributeError`. -/
def attrs : List String :=
  ["generate_conn_string", "get_table_name_from_path", "process_json_file",
   "process_html_file", "save_dataframes", "save_media_data",
   "get_tables_that_contains", "read_table"]

/-- `getattr(DatabaseHandler, name)` succeeds iff the name is defined. -/
def hasAttr (name : String) : Bool := attrs.contains name

/-- Connection string for the per-identity Datastore file. -/
def generate_conn_string (memora_id : Int) : String :=
  "sqlite:///memora_" ++ toString memora_id ++ ".db"

/-- Index of the last dot in a list of characters, if any. -/
def lastDotIdx (cs : List Char) : Option Nat :=
  (List.range cs.length).foldl
    (fun acc i => if cs.get? i = some '.' then some i else acc) none

/-- Models pathlib `with_suffix('')` on one path component: the suffix is
the substring from the last dot onward, provided that dot is neither the
first nor the last character; an empty replacement removes it. -/
def stripSuffix (name : String) : String :=
  let cs := name.toList
  match lastDotIdx cs with
  | none => name
  | some i => if 0 < i ∧ i < cs.length - 1 then String.mk (cs.take i) else name

/-- Replace the last element of a list by applying `f`. -/
def mapLast (f : String → String) : List String → List String
  | [] => []
  | [x] => [f x]
  | x :: xs => x :: mapLast f xs

/-- Sanitization step: keep characters that are alphanumeric (Python
`str.isalnum`) or underscore, replace every other character by an
underscore. -/
def cleanTableName (s : String) : String :=
  String.mk (s.toList.map (fun c => if pyIsAlnum c || c == '_' then c else '_'))

/-- Python `'__'.join(path_parts)`, structurally. -/
def joinUnderscore : List String → String
  | [] => ""
  | [p] => p
  | p :: rest => p ++ "__" ++ joinUnderscore rest

/-- `get_table_name_from_path`, from the component list of the relative
path: strip the extension of the final component, join components with a
double underscore, sanitize, and force a leading letter. `none` models
the `IndexError` Python raises indexing `clean_table_name[0]` when the
joined name is empty (possible only for an empty component list or
components that are themselves empty, which pathlib never produces). -/
def get_table_name_from_path (rel_parts : List String) : Option String :=
  let path_parts := mapLast stripSuffix rel_parts
  let table_name := joinUnderscore path_parts
  let clean_table_name := cleanTableName table_name
  match clean_table_name.toList with
  | [] => none
  | c :: _ =>
    if pyIsAlpha c then some clean_table_name
    else some ("f_" ++ clean_table_name)

end DatabaseHandler

/-! ## JSON documents and inferred frames

`process_json_file` loads arbitrary JSON; we embed JSON values as
`PyJson`. Keys of an object are listed in insertion order and are
distinct, as produced by `json.load`. A pandas `DataFrame` is abstracted
as its column list and row count (`Frame`): the only facts the source
ever draws from a frame are its shape (`df.empty`, `len(df.columns)`,
`len(df)`) and its table name; cell values are carried nowhere. -/

inductive PyJson where
  | null : PyJson
  | boolean (b : Bool) : PyJson
  | num (n : Int) : PyJson
  | str (s : String) : PyJson
  | list (items : List PyJson) : PyJson
  | obj (fields : List (String × PyJson)) : PyJson

/-- Shape of a pandas DataFrame: ordered column names and row count. -/
structure Frame where
  columns : List String
  nrows : Nat
deriving DecidableEq, Repr

/-- Append an element unless already present: dict-key insertion. -/
def pushUniq {a : Type} [BEq a] (ks : List a) (k : a) : List a :=
  if ks.contains k then ks else ks ++ [k]

/-- First-occurrence deduplication, preserving order. -/
def dedupKeys (ks : List String) : List String :=
  ks.foldl pushUniq []

/-- Flattened column names of one record, per pandas
`json_normalize` / `nested_to_record`: a non-object value under key `k`
yields column `k`; an object value is flattened recursively with a dot
separator, so an empty object value yields no column at all. The first
argument is recursion fuel; `recordColumns` supplies enough fuel
(`sizeOfFields`, one unit per field) for the recursion to bottom out, so
the fuel never runs dry on the actual argument. -/
def fieldColumnsF : Nat → List (String × PyJson) → List String
  | 0, _ => []
  | _ + 1, [] => []
  | fuel + 1, (k, PyJson.obj kvs) :: rest =>
      (fieldColumnsF fuel kvs).map (fun k2 => k ++ "." ++ k2) ++
        fieldColumnsF fuel rest
  | fuel + 1, (k, _) :: rest => k :: fieldColumnsF fuel rest

/-- An upper bound on the nesting structure of an object field list:
one unit per field plus the weight of nested object fields. -/
def sizeOfFieldsF : Nat → List (String × PyJson) → Nat
  | 0, _ => 0
  | _ + 1, [] => 0
  | fuel + 1, (_, PyJson.obj kvs) :: rest =>
      1 + sizeOfFieldsF fuel kvs + sizeOfFieldsF fuel rest
  | fuel + 1, _ :: rest => 1 + sizeOfFieldsF fuel rest

/-- Flattened column names of one object record. -/
def recordColumns (kvs : List (String × PyJson)) : List String :=
  fieldColumnsF (1 + sizeOfFieldsF 1000000 kvs) kvs

/-- Whether a JSON value is an object. -/
def PyJson.isObj : PyJson → Bool
  | .obj _ => true
  | _ => false

/-- The field list of an object value (empty for non-objects). -/
def PyJson.fields : PyJson → List (String × PyJson)
  | .obj kvs => kvs
  | _ => []

/-- Models `pd.json_normalize` applied to a list of records: every
element must be an object, otherwise pandas raises (modelled as
`Except.error`); on success the frame has one row per record and the
first-occurrence union of each record's flattened keys as columns. The
subsequent per-column `flatten_json` pass in the source stringifies any
remaining nested cell, which leaves the frame shape unchanged and is
therefore invisible at this abstraction. -/
def pd_json_normalize (records : List PyJson) : Except String Frame :=
  if records.all PyJson.isObj then
    Except.ok { columns := dedupKeys (records.flatMap (fun r => recordColumns r.fields)),
                nrows := records.length }
  else Except.error "AttributeError"

namespace DatabaseHandler

/-- The per-key loop over a top-level JSON object (lines 69-87 of
db_handler.py): an empty list or empty object value is skipped; a
non-empty list value is normalized into a table `<base>__<key>`; a
non-empty object value becomes a one-row table `<base>__<key>`; a scalar
value is ignored (no branch matches it). A normalization error escapes
the loop (so tables collected from earlier keys are lost), modelled by
the `Except` result. -/
def processObjKeys (table_name : String) :
    List (String × PyJson) → Except String (List (String × Frame))
  | [] => Except.ok []
  | (key, PyJson.list l) :: rest =>
    if l.isEmpty then processObjKeys table_name rest
    else
      match pd_json_normalize l with
      | Except.error e => Except.error e
      | Except.ok f =>
        (processObjKeys table_name rest).map
          (fun dfs => (table_name ++ "__" ++ key, f) :: dfs)
  | (key, PyJson.obj kvs) :: rest =>
    if kvs.isEmpty then processObjKeys table_name rest
    else
      match pd_json_normalize [PyJson.obj kvs] with
      | Except.error e => Except.error e
      | Except.ok f =>
        (processObjKeys table_name rest).map
          (fun dfs => (table_name ++ "__" ++ key, f) :: dfs)
  | _ :: rest => processObjKeys table_name rest

/-- `process_json_file`, given the relative-path components of the file
and its parsed content. A top-level list becomes one table named from
the path; a top-level object is processed key by key; any other
top-level value yields nothing. Frames with no rows or no columns are
dropped at the end. Any exception inside the body (empty table name, a
normalization failure) is caught by the function-level handler and
yields the empty result. File opening and `json.load` happen before
this logic; a read or parse failure likewise yields the empty result
and is modelled at the call site. -/
def process_json_file (rel_parts : List String) (data : PyJson) :
    List (String × Frame) :=
  match get_table_name_from_path rel_parts with
  | none => []
  | some table_name =>
    let dfs : Except String (List (String × Frame)) :=
      match data with
      | PyJson.list l =>
        if l.isEmpty then Except.ok []
        else
          match pd_json_normalize l with
          | Except.error e => Except.error e
          | Except.ok f => Except.ok [(table_name, f)]
      | PyJson.obj kvs => processObjKeys table_name kvs
      | _ => Except.ok []
    match dfs with
    | Except.error _ => []
    | Except.ok dfs =>
      dfs.filter (fun kv => decide (kv.2.nrows ≠ 0) && decide (kv.2.columns ≠ []))

/-- `process_html_file`: `pd.read_html` either raises (modelled by the
`Except.error` argument, caught into an empty result) or yields a list
of frames, which are named `<base>__<index>` by position. -/
def process_html_file (rel_parts : List String)
    (read_html : Except String (List Frame)) : List (String × Frame) :=
  match read_html with
  | Except.error _ => []
  | Except.ok dfs =>
    match get_table_name_from_path rel_parts with
    | none => []
    | some base =>
      dfs.enum.map (fun p => (base ++ "__" ++ toString p.1, p.2))

/-- Write one frame into an association-list datastore, replacing any
table of the same name (pandas `to_sql` with `if_exists` replace). -/
def setTable (db : List (String × Frame)) (name : String) (f : Frame) :
    List (String × Frame) :=
  if db.any (fun kv => kv.1 == name) then
    db.map (fun kv => if kv.1 == name then (name, f) else kv)
  else db ++ [(name, f)]

/-- Python `dict.update`: each new binding overwrites an existing key in
place or is appended in iteration order. -/
def updateAssoc (m kvs : List (String × Frame)) : List (String × Frame) :=
  kvs.foldl (fun m kv => setTable m kv.1 kv.2) m

/-- `save_dataframes`: write each frame with replace semantics. The
`df.empty` guard skips a frame as soon as either axis is empty (no rows
or no columns), so the subsequent zero-column branch that would add a
default `timestamp` column can never fire; it is mirrored here exactly
as the dead code it is in the source. -/
def save_dataframes (db : List (String × Frame))
    (dataframes : List (String × Frame)) : List (String × Frame) :=
  dataframes.foldl
    (fun db kv =>
      if kv.2.nrows = 0 ∨ kv.2.columns = [] then db
      else
        let f := if kv.2.columns.isEmpty then
            { kv.2 with columns := ["timestamp"] } else kv.2
        setTable db kv.1 f)
    db

end DatabaseHandler

/-! ## Media annotation records

A media-annotation record, as produced by `process_files_batch` and
consumed by `save_media_data`. The Python value is a dict; fields the
batch may omit (`text`, `segments`, `language`, `media_description`) are
`Option`s, read back with the same defaults `dict.get` supplies.
Serialized payloads (the metadata dict, the whisper segment list) are
carried in their `json.dumps` form, which is all `save_media_data` ever
does with them. Paths are pathlib component lists. -/

structure MediaRecord where
  path : List String
  metadata : String
  text : Option String := none
  segments : Option String := none
  language : Option String := none
  media_description : Option String := none
  media_type : String
deriving DecidableEq, Repr

/-- A row of a persisted `media__<bucket>` table. `save_media_data`
builds one of two row shapes depending on the `media_type` argument. -/
inductive MediaRow where
  | audioRow (date filename text uri metadata segments language
      media_type : String) : MediaRow
  | mediaRow (date filename description uri text metadata
      media_type : String) : MediaRow
deriving DecidableEq, Repr

namespace DatabaseHandler

/-- The 6-digit time bucket: the first path component that is all digits
(Python `str.isdigit`) and 6 characters long, if any. -/
def dateOf (path_parts : List String) : Option String :=
  path_parts.find? (fun part => pyStrIsDigit part && part.length == 6)

/-- The semantic-bucket vocabulary of lines 169. -/
def folderVocab : List String := ["stories", "posts", "profile", "reels"]

/-- The semantic bucket: the first path component in the vocabulary,
defaulting to "others". -/
def folderOf (path_parts : List String) : String :=
  match path_parts.find? (fun part => folderVocab.contains part) with
  | some f => f
  | none => "others"

/-- `os.path.basename` of a path given as components. -/
def basenameOf (path_parts : List String) : String :=
  (path_parts.getLast?).getD ""

/-- Python `str.startswith`, computed on character lists. -/
def pyStartsWith (s pre : String) : Bool :=
  pre.toList.isPrefixOf s.toList

/-- The stored uri: the path components, minus any component starting
with `extract_memora_`, joined with `/`. -/
def relativePathOf (path_parts : List String) : String :=
  String.intercalate "/"
    (path_parts.filter (fun part => !pyStartsWith part "extract_memora_"))

/-- The serialization of an empty Python dict. -/
def emptyJsonObj : String := "\x7b\x7d"

/-- The row built for one dated item (lines 182-202): the audio shape
carries text, segments and language; every other media type carries a
description. Missing fields take the `dict.get` defaults. -/
def rowOf (media_type : String) (date : String) (item : MediaRecord) :
    MediaRow :=
  if media_type == "audio" then
    MediaRow.audioRow date (basenameOf item.path) (item.text.getD "")
      (relativePathOf item.path) item.metadata (item.segments.getD "[]")
      (item.language.getD "") item.media_type
  else
    MediaRow.mediaRow date (basenameOf item.path)
      (item.media_description.getD "") (relativePathOf item.path)
      (item.text.getD "") item.metadata item.media_type

/-- The `(folder, date)` keys of `grouped_data`, in first-occurrence
order over the dated items; undated items contribute nothing. -/
def groupKeys (items : List MediaRecord) : List (String × String) :=
  items.foldl
    (fun ks item =>
      match dateOf item.path with
      | none => ks
      | some d => pushUniq ks (folderOf item.path, d))
    []

/-- The rows accumulated under one `(folder, date)` key, in item order:
exactly how the per-item loop appends to `grouped_data[(folder, date)]`. -/
def rowsOfKey (media_type : String) (items : List MediaRecord)
    (k : String × String) : List MediaRow :=
  items.filterMap
    (fun item =>
      match dateOf item.path with
      | none => none
      | some d =>
        if (folderOf item.path, d) == k then some (rowOf media_type d item)
        else none)

/-- The folder names of `folder_groups`, in first-occurrence order over
the keys of `grouped_data`. -/
def folderKeys (items : List MediaRecord) : List String :=
  dedupKeys ((groupKeys items).map Prod.fst)

/-- All rows of one folder group: the concatenation, in key order, of
the row lists of that folder's `(folder, date)` keys — exactly the
`folder_groups[folder].extend(rows)` loop. -/
def rowsOfFolder (media_type : String) (items : List MediaRecord)
    (folder : String) : List MediaRow :=
  ((groupKeys items).filter (fun k => k.1 == folder)).flatMap
    (rowsOfKey media_type items)

/-- `to_sql` with `if_exists` append on the media store: rows are added
to an existing table or a new table is created. -/
def appendMediaTable (db : List (String × List MediaRow)) (name : String)
    (rows : List MediaRow) : List (String × List MediaRow) :=
  if db.any (fun kv => kv.1 == name) then
    db.map (fun kv => if kv.1 == name then (kv.1, kv.2 ++ rows) else kv)
  else db ++ [(name, rows)]

/-- `save_media_data`: group the dated items by `(folder, date)`, regroup
by folder, and append each folder group to its table `media__<folder>`.
Items whose path has no 6-digit component are never added to
`grouped_data` and so are never persisted. -/
def save_media_data (db : List (String × List MediaRow))
    (media_type : String) (data : List MediaRecord) :
    List (String × List MediaRow) :=
  (folderKeys data).foldl
    (fun db folder =>
      appendMediaTable db ("media__" ++ folder)
        (rowsOfFolder media_type data folder))
    db

/-- Observer: the rows of the first table with the given name (empty
when absent). -/
def lookupRows : List (String × List MediaRow) → String → List MediaRow
  | [], _ => []
  | kv :: rest, tbl => if kv.1 == tbl then kv.2 else lookupRows rest tbl

/-- Observer: the rows one `save_media_data` call adds to the table
named `tbl` — the folder groups whose table name is `tbl`, flattened.
Every row in it is built by `rowOf` from an item with a 6-digit time
bucket; undated items occur in no group. -/
def mediaRowsFor (media_type : String) (items : List MediaRecord)
    (tbl : String) : List MediaRow :=
  ((folderKeys items).filter (fun f => ("media__" ++ f) == tbl)).flatMap
    (rowsOfFolder media_type items)

end DatabaseHandler

/-! ## Archive intake, classification and the media batch
(src/app/tasks/social_media_processor.py) -/

/-- Models pathlib `Path.suffix.lower()` on one path component: the
substring from the last dot onward, provided that dot is neither the
first nor the last character, lowercased (the extensions involved are
ASCII). Empty otherwise. -/
def suffixLower (filename : String) : String :=
  let cs := filename.toList
  match DatabaseHandler.lastDotIdx cs with
  | none => ""
  | some i =>
    if 0 < i ∧ i < cs.length - 1 then String.mk ((cs.drop i).map Char.toLower)
    else ""

/-- `Path(p).suffix.lower()` of a path given as components. -/
def pathSuffix (path_parts : List String) : String :=
  suffixLower ((path_parts.getLast?).getD "")

/-- Python slicing `s[1:]`, on character lists. -/
def sliceFrom1 (s : String) : String := String.mk (s.toList.drop 1)

/-- The keys of the `file_mapping` dict of `scan_files`, in insertion
order. -/
def knownExts : List String :=
  ["html", "json", "png", "jpg", "jpeg", "gif", "bmp", "webp",
   "webm", "mp4", "mov", "avi", "mp3", "wav", "ogg"]

/-- `scan_files` as a mapping: the walked files (in walk order) whose
extension — the suffix without its dot — equals a recognized key; every
unrecognized extension is counted but mapped nowhere. -/
def scan_files (files : List (List String)) (ext : String) :
    List (List String) :=
  if knownExts.contains ext then
    files.filter (fun p => sliceFrom1 (pathSuffix p) == ext)
  else []

/-- The extensions gathered into `media_files` by the ingestion entry
point (line 303): the six image extensions, and only those. -/
def mediaFileExts : List String := ["png", "jpg", "jpeg", "gif", "bmp", "webp"]

/-- `media_files` as built on lines 302-304: the scanned files of the
image extensions, concatenated in that key order. -/
def mediaFilesOf (files : List (List String)) : List (List String) :=
  mediaFileExts.flatMap (scan_files files)

/-- The extension sets of `process_files_batch` (lines 117-119),
dot-included as `Path.suffix` produces them. -/
def image_extensions : List String :=
  [".png", ".jpg", ".jpeg", ".gif", ".bmp", ".webp"]

def audio_extensions : List String := [".mp3", ".wav", ".ogg"]

def video_extensions : List String := [".webm", ".mp4", ".mov", ".avi"]

/-- The payload a successful audio read yields: mutagen container
metadata (in `json.dumps` form) and the whisper transcription. -/
structure AudioData where
  metadata : String
  text : String
  segments : String
  language : String
deriving DecidableEq, Repr

/-- The payload a successful image read yields: PIL metadata (in
`json.dumps` form) and the BLIP caption; `get_description_from_image`
catches its own failures and yields an empty caption, so the caption is
always present here. -/
structure ImageData where
  metadata : String
  media_description : String
deriving DecidableEq, Repr

/-- Oracles for the external effects of one media batch: model loading
(`setup_image_model`, `setup_whisper_model`) and the per-file reads.
`audioRead` covers the mutagen read together with the whisper
transcription of `process_audio_file`; both raise inside the same
`try`, producing one fallback, so one oracle is faithful to the
observable outcome. `imageRead` covers `Image.open` plus metadata
extraction; an error models a raised `Image.open`. -/
structure BatchWorld where
  blipSetup : Except String Unit
  whisperSetup : Except String Unit
  audioRead : List String → Except String AudioData
  imageRead : List String → Except String ImageData

/-- `process_audio_file`: on success, a record carrying path, metadata,
transcript, segments and language; on any failure, a record with empty
metadata dict, empty text, empty segments and empty language — the file
still contributes a record. -/
def process_audio_file (w : BatchWorld) (file_path : List String) :
    MediaRecord :=
  match w.audioRead file_path with
  | Except.ok d =>
    { path := file_path, metadata := d.metadata, text := some d.text,
      segments := some d.segments, language := some d.language,
      media_type := "audio" }
  | Except.error _ =>
    { path := file_path, metadata := DatabaseHandler.emptyJsonObj,
      text := some "", segments := some "[]", language := some "",
      media_type := "audio" }

/-- The per-image loop body: a successful open yields a record with the
caption; a raised open is logged and the file contributes no record. -/
def process_image_file (w : BatchWorld) (file_path : List String) :
    Option MediaRecord :=
  match w.imageRead file_path with
  | Except.ok d =>
    some { path := file_path, metadata := d.metadata,
           media_description := some d.media_description,
           media_type := "image" }
  | Except.error _ => none

/-- `process_files_batch`: group the given paths by extension set (video
files are grouped but their processing is commented out in the source),
load the needed models once — image models first, then whisper, a raised
load escaping to the function-level handler which returns the empty
list — then process every audio file, then every image file. -/
def process_files_batch (w : BatchWorld) (file_paths : List (List String)) :
    List MediaRecord :=
  let image_files := file_paths.filter
    (fun p => image_extensions.contains (pathSuffix p))
  let audio_files := file_paths.filter
    (fun p => audio_extensions.contains (pathSuffix p))
  let blip : Except String Unit :=
    if image_files.isEmpty then Except.ok () else w.blipSetup
  let whisper : Except String Unit :=
    if audio_files.isEmpty then Except.ok () else w.whisperSetup
  match blip with
  | Except.error _ => []
  | Except.ok _ =>
    match whisper with
    | Except.error _ => []
    | Except.ok _ =>
      audio_files.map (process_audio_file w) ++
        image_files.filterMap (process_image_file w)

/-! ## The ingestion job (process_social_media_data)

The job is a function from a world of oracles and an initial state to a
final state. The state carries the facts the claims are about: whether
the per-identity Datastore file exists, its structured and media tables,
the identity record, whether the extraction working directory exists,
and instrumentation flags recording which stages executed. The world
carries every external outcome: the zip extraction (its error models a
raised `zipfile` exception; its value the walked extracted tree, as
paths relative to the extraction root), per-file reads, the media batch
oracles, and the Profile Synthesis outcome (`UserAnalyzer.analyze_user`:
an LLM round trip followed by `json.loads`). The analyzer oracle yields
either a raised exception — an LLM failure or a malformed-JSON
`json.loads` failure — or the parsed JSON object as a key-value list
(keys distinct, in document order; the stored values are strings, which
is all the three subscripts the caller performs ever read). A parse
result that is not an object raises `TypeError` at the first subscript,
before any field assignment; that path is observationally the oracle
error case and is represented by it. -/

inductive MemoraStatus where
  | BASIC_INFO_COMPLETED : MemoraStatus
  | VIDEO_INFO_COMPLETED : MemoraStatus
  | ERROR_PROCESSING_VIDEO : MemoraStatus
  | PROCESSING_SOCIALMEDIA_DATA : MemoraStatus
  | CONCLUDED : MemoraStatus
  | CONCLUDED_WITH_ANALYZER_ERROR : MemoraStatus
  | ERROR : MemoraStatus
deriving DecidableEq, Repr

/-- The identity record fields the job reads or mutates. -/
structure MemoraRecord where
  bio : Option String := none
  description : Option String := none
  speak_pattern : Option String := none
  status : MemoraStatus
  status_message : Option String := none
deriving DecidableEq, Repr

/-- The per-identity Datastore: structured tables and media tables. The
two families never share a name in any claim, so they are carried
side by side. -/
structure Datastore where
  tables : List (String × Frame) := []
  media : List (String × List MediaRow) := []
deriving DecidableEq, Repr

/-- Job state threaded through `process_social_media_data`. The `ran*`
fields are instrumentation: each is set exactly where the corresponding
stage executes in the source, and an invocation starts with all of them
false. -/
structure PipeState where
  dbFileExists : Bool
  store : Datastore := {}
  record : Option MemoraRecord := none
  extractDirExists : Bool := false
  ranExtraction : Bool := false
  ranSchemaInference : Bool := false
  ranMediaStage : Bool := false
deriving DecidableEq, Repr

/-- Oracles for one invocation of the job. `extractRoot` is the
component list of the extraction directory (its last component starts
with `extract_memora_`); walked absolute paths are `extractRoot ++ p`. -/
structure World where
  zipExtract : Except String (List (List String))
  jsonContent : List String → Except String PyJson
  htmlContent : List String → Except String (List Frame)
  batch : BatchWorld
  analyzer : Except String (List (String × String))
  extractRoot : List String

/-- The state an invocation starts from. -/
def initState (dbFileExists : Bool) (record : Option MemoraRecord)
    (store : Datastore) : PipeState :=
  { dbFileExists := dbFileExists, store := store, record := record }

/-- The `finally` block (lines 373-378): remove the extraction working
directory if one was created; with `extract_path` still unset the block
does nothing. -/
def finallyCleanup (s : PipeState) : PipeState :=
  { s with extractDirExists := false }

/-- The outer `except` handler (lines 359-371): re-fetch the record and,
when found, set status `ERROR` with a message built from the raised
exception. -/
def exceptHandler (s : PipeState) (e : String) : PipeState :=
  match s.record with
  | none => s
  | some dbm =>
    { s with record := some { dbm with
        status := MemoraStatus.ERROR,
        status_message := some ("Social media processing failed: " ++ e) } }

/-- Python dict subscript on the parsed analyzer result: the value
under the key, if present. -/
def pyDictGet (kvs : List (String × String)) (k : String) : Option String :=
  (kvs.find? (fun kv => kv.1 == k)).map Prod.snd

/-- `str(e)` for the `KeyError` a missing subscript raises: CPython
renders the missing key in single quotes. -/
def keyErrorStr (k : String) : String := "\x27" ++ k ++ "\x27"

/-- The three subscript-and-assign statements of lines 237-239 (and
347-349): each subscript either reads its key or raises `KeyError`,
leaving behind whatever fields were already assigned. The error case
carries the partially mutated record together with the missing key. -/
def assignProfileFields (res : List (String × String))
    (dbm : MemoraRecord) : Except (MemoraRecord × String) MemoraRecord :=
  match pyDictGet res "short_bio" with
  | none => Except.error (dbm, "short_bio")
  | some b =>
    let dbm1 : MemoraRecord := { dbm with bio := some b }
    match pyDictGet res "detailed_profile" with
    | none => Except.error (dbm1, "detailed_profile")
    | some p =>
      let dbm2 : MemoraRecord := { dbm1 with description := some p }
      match pyDictGet res "speak_pattern" with
      | none => Except.error (dbm2, "speak_pattern")
      | some sp => Except.ok { dbm2 with speak_pattern := some sp }

/-- The analysis block of the skip path (lines 232-247): a raised
analysis call sets status `CONCLUDED_WITH_ANALYZER_ERROR` with a
message and assigns no field; a parsed result has its three keys read
and assigned one by one, a missing key raising `KeyError` after the
earlier assignments already mutated the record — the handler then sets
`CONCLUDED_WITH_ANALYZER_ERROR` on that partially mutated record; only
a fully assigned record gets status `CONCLUDED`. Nothing else of the
state is touched. -/
def analysisSkipPath (w : World) (s : PipeState) (dbm : MemoraRecord) :
    PipeState :=
  match w.analyzer with
  | Except.error e =>
    { s with record := some { dbm with
        status := MemoraStatus.CONCLUDED_WITH_ANALYZER_ERROR,
        status_message := some ("Error in user analysis: " ++ e) } }
  | Except.ok res =>
    match assignProfileFields res dbm with
    | Except.ok dbm3 =>
      { s with record := some { dbm3 with
          status := MemoraStatus.CONCLUDED } }
    | Except.error (dbmPartial, key) =>
      { s with record := some { dbmPartial with
          status := MemoraStatus.CONCLUDED_WITH_ANALYZER_ERROR,
          status_message := some ("Error in user analysis: " ++
            keyErrorStr key) } }

/-- One JSON file processed through its oracle: a raised `open` or
`json.load` is caught by the handler inside `process_json_file` and
yields nothing; otherwise the parsed document is flattened. -/
def processJsonAt (w : World) (p : List String) : List (String × Frame) :=
  match w.jsonContent p with
  | Except.error _ => []
  | Except.ok data => DatabaseHandler.process_json_file p data

/-- One HTML file processed through its oracle. -/
def processHtmlAt (w : World) (p : List String) : List (String × Frame) :=
  DatabaseHandler.process_html_file p (w.htmlContent p)

/-- The success status message of lines 324-330. `all_results` is never
appended to anywhere in the source, so the processed-with-content count
is always zero. -/
def successMessage (files : List (List String))
    (dataframeCount : Nat) (mediaFilesNonempty : Bool) : String :=
  let counts := knownExts.map (fun e => (e, (scan_files files e).length))
  let total := (counts.map Prod.snd).sum
  let parts := String.intercalate ", "
    ((counts.filter (fun c => c.2 ≠ 0)).map
      (fun c => toString c.2 ++ " " ++ c.1))
  "Social media data processed successfully. Found: " ++ toString total ++
    " files (" ++ parts ++ "). Processed 0 files with content. Created " ++
    toString (dataframeCount + (if mediaFilesNonempty then 1 else 0)) ++
    " database tables."

/-- The full-processing continuation (lines 277-357), entered only after
the `create_memora_database` attribute access succeeds — which it never
does (see `DatabaseHandler.attrs`); embedded nonetheless, directly from
the source: flatten every JSON and HTML file into `all_dataframes`
(later files overwriting equal table names, as `dict.update` does), save
them with replace semantics, run the media batch over the image files
and append its records into per-type media tables, set status
`CONCLUDED` with the success message, then run Profile Synthesis,
whose failure downgrades the status to `CONCLUDED_WITH_ANALYZER_ERROR`. -/
def fullProcessing (w : World) (s : PipeState) (dbm : MemoraRecord)
    (files : List (List String)) : PipeState :=
  let jsons := scan_files files "json"
  let htmls := scan_files files "html"
  let afterJson := jsons.foldl
    (fun m p => DatabaseHandler.updateAssoc m (processJsonAt w p)) []
  let all_dataframes := htmls.foldl
    (fun m p => DatabaseHandler.updateAssoc m (processHtmlAt w p)) afterJson
  let s := { s with ranSchemaInference := !jsons.isEmpty || !htmls.isEmpty }
  let s := if all_dataframes.isEmpty then s
    else { s with store := { s.store with
      tables := DatabaseHandler.save_dataframes s.store.tables all_dataframes } }
  let media_files := mediaFilesOf files
  let s :=
    if media_files.isEmpty then s
    else
      let media_results := process_files_batch w.batch
        (media_files.map (fun p => w.extractRoot ++ p))
      let s := { s with ranMediaStage := true }
      if media_results.isEmpty then s
      else
        let types := dedupKeys (media_results.map MediaRecord.media_type)
        { s with store := { s.store with
            media := types.foldl
              (fun db t => DatabaseHandler.save_media_data db t
                (media_results.filter (fun r => r.media_type == t)))
              s.store.media } }
  let rec1 : MemoraRecord := { dbm with
    status := MemoraStatus.CONCLUDED,
    status_message := some (successMessage files all_dataframes.length
      (!media_files.isEmpty)) }
  let s := { s with record := some rec1 }
  if rec1.status ≠ MemoraStatus.ERROR then
    match w.analyzer with
    | Except.error e =>
      { s with record := some { rec1 with
          status := MemoraStatus.CONCLUDED_WITH_ANALYZER_ERROR,
          status_message := some ("Error in user analysis: " ++ e) } }
    | Except.ok res =>
      match assignProfileFields res rec1 with
      | Except.ok rec2 => { s with record := some rec2 }
      | Except.error (recPartial, key) =>
        { s with record := some { recPartial with
            status := MemoraStatus.CONCLUDED_WITH_ANALYZER_ERROR,
            status_message := some ("Error in user analysis: " ++
              keyErrorStr key) } }
  else s

/-- `process_social_media_data`: with the Datastore file already present,
fetch the record and go straight to Profile Synthesis (no extraction
directory is created, nothing touches the Datastore). Otherwise create
the extraction working directory, fetch the record, extract the archive
— a raised extraction reaching the outer handler — and access
`DatabaseHandler.create_memora_database`, an attribute the class does
not define, so `AttributeError` reaches the outer handler; the `finally`
block removes the working directory on every fresh-path exit. -/
def process_social_media_data (w : World) (s0 : PipeState) : PipeState :=
  if s0.dbFileExists then
    match s0.record with
    | none => s0
    | some dbm => analysisSkipPath w s0 dbm
  else
    let s1 := { s0 with extractDirExists := true }
    match s1.record with
    | none => finallyCleanup s1
    | some dbm =>
      match w.zipExtract with
      | Except.error e => finallyCleanup (exceptHandler s1 e)
      | Except.ok files =>
        let s2 := { s1 with ranExtraction := true }
        if DatabaseHandler.hasAttr "create_memora_database" then
          finallyCleanup (fullProcessing w s2 dbm files)
        else
          finallyCleanup (exceptHandler s2
            "type object \x27DatabaseHandler\x27 has no attribute \x27create_memora_database\x27")

/-! ## The retrieval and synthesis workflow (src/app/agents/memora_agent.py)

The 4-node graph of `MemoraAgent.generate_response` runs its nodes in
edge order: similarity search, structured query, merge, final
generation. Node functions that contain no `try` propagate a raised
oracle as `Except.error`; `db_querier` alone catches its own failure.
The turn state mirrors `ExtendedAgentState`. -/

structure AgentState where
  query : String
  vector_response : Option String := none
  db_response : Option String := none
  merged_response : Option String := none
  memora_id : Int
  memora_name : String
  memora_bio : String
  memora_description : String
  speak_pattern : String
  chat_history : String
  output : Option String := none
deriving DecidableEq, Repr

/-- A stored passage returned by the vector store: its page content and
the optional `full_text` metadata entry. -/
structure Doc where
  page_content : String
  full_text : Option String := none
deriving DecidableEq, Repr

/-- The variables `final_agent` feeds the prompt template. -/
structure PromptInput where
  memora_name : String
  memora_bio : String
  memora_description : String
  speak_pattern : String
  chat_history : String
  question : String
  context : String
deriving DecidableEq, Repr

/-- Oracles of one turn: the Chroma similarity search, the SQL agent
invocation (`response[output]`), and the final generation call. -/
structure AgentWorld where
  vectorSearch : String → Except String (List Doc)
  sqlInvoke : String → Except String String
  llm : PromptInput → Except String String

/-- Node 1, `vector_searcher`: no hits yield the literal marker; hits
are deduplicated by content and joined by blank lines. The Python code
collects contents into a `set` whose iteration order is unspecified;
first-occurrence order stands in for it here, and no theorem below
depends on that order. The method contains no `try`: a raised search
propagates out of the node. -/
def vector_searcher (w : AgentWorld) (state : AgentState) :
    Except String AgentState :=
  match w.vectorSearch state.query with
  | Except.error e => Except.error e
  | Except.ok docs =>
    if docs.isEmpty then
      Except.ok { state with vector_response := some "No relevant documents found." }
    else
      let unique_contents :=
        dedupKeys (docs.map (fun d => d.full_text.getD d.page_content))
      Except.ok { state with
        vector_response := some (String.intercalate "\n\n" unique_contents) }

/-- Node 2, `db_querier`: the sole node with its own `try`; a raised
query is degraded to the literal error string. -/
def db_querier (w : AgentWorld) (state : AgentState) : AgentState :=
  match w.sqlInvoke state.query with
  | Except.ok out => { state with db_response := some out }
  | Except.error e =>
    { state with db_response := some ("[Error querying SQL] " ++ e) }

/-- Node 3, `combiner`: two concatenations onto `merged_response`. With
either contribution still `None`, Python raises `TypeError` adding
`str` to `None`, modelled as the error case. -/
def combiner (state : AgentState) : Except String AgentState :=
  match state.db_response, state.vector_response with
  | some d, some v =>
    let merged := "Context from database: " ++ d ++
      "\n\nContext from vector search: " ++ v
    Except.ok { state with merged_response := some merged }
  | _, _ => Except.error "TypeError"

/-- Node 4, `final_agent`: one generation call over the rendered prompt;
no `try`, so a raised call propagates. A `None` merged context would
render as the string `None`; after `combiner` it is always present. -/
def final_agent (w : AgentWorld) (state : AgentState) :
    Except String AgentState :=
  let ctx := state.merged_response.getD "None"
  match w.llm { memora_name := state.memora_name,
                memora_bio := state.memora_bio,
                memora_description := state.memora_description,
                speak_pattern := state.speak_pattern,
                chat_history := state.chat_history,
                question := state.query,
                context := ctx } with
  | Except.ok resp => Except.ok { state with output := some resp }
  | Except.error e => Except.error e

/-- The compiled workflow, in its edge order START → vector_searcher →
db_querier → combiner → final_agent → END. -/
def runWorkflow (w : AgentWorld) (state : AgentState) :
    Except String AgentState :=
  match vector_searcher w state with
  | Except.error e => Except.error e
  | Except.ok st1 =>
    match combiner (db_querier w st1) with
    | Except.error e => Except.error e
    | Except.ok st3 => final_agent w st3

/-- The last `n` elements of a list: Python `l[-n:]`. -/
def lastN (n : Nat) (l : List (String × String)) : List (String × String) :=
  l.drop (l.length - n)

/-- The bounded history window of `generate_response`: the last five
turns rendered line by line, or the fixed marker when there are none. -/
def formatHistory (chat_history : List (String × String)) : String :=
  if chat_history.isEmpty then "No previous messages"
  else
    String.intercalate "\n"
      ((lastN 5 chat_history).map
        (fun m => "User: " ++ m.1 ++ "\nMemora: " ++ m.2))

/-- The fixed apologetic fallback of the outer handler. -/
def fallbackMessage : String :=
  "I apologize, but I\x27m having trouble generating a response right now. Please try again later."

/-- `generate_response`: build the initial turn state, run the workflow,
return its output; any exception escaping the workflow is caught by the
method-level handler, which returns the fixed fallback text. -/
def generate_response (w : AgentWorld) (question : String)
    (memora_id : Int) (memora_name memora_bio memora_description
    speak_pattern : String) (chat_history : List (String × String)) :
    String :=
  let initial : AgentState :=
    { query := question, memora_id := memora_id,
      memora_name := memora_name, memora_bio := memora_bio,
      memora_description := memora_description,
      speak_pattern := speak_pattern,
      chat_history := formatHistory chat_history }
  match runWorkflow w initial with
  | Except.ok final_state => final_state.output.getD ""
  | Except.error _ => fallbackMessage

/-- A world stub for witnesses: json, html and per-file oracles fail,
model loads succeed, the archive extracts to the given tree and the
analyzer returns the given outcome. -/
def stubWorld (az : Except String (List (String × String)))
    (zip : Except String (List (List String))) : World where
  zipExtract := zip
  jsonContent := fun _ => Except.error "unused"
  htmlContent := fun _ => Except.error "unused"
  batch :=
    { blipSetup := Except.ok (), whisperSetup := Except.ok (),
      audioRead := fun _ => Except.error "unused",
      imageRead := fun _ => Except.error "unused" }
  analyzer := az
  extractRoot := ["extract_memora_1"]

/-- A parsed analyzer result, a record and a small store used by
concrete witnesses. -/
def stubParsed : List (String × String) :=
  [("short_bio", "B"), ("detailed_profile", "P"), ("speak_pattern", "S")]

def stubRecord : MemoraRecord where
  status := MemoraStatus.PROCESSING_SOCIALMEDIA_DATA

def stubStore : Datastore where
  tables := [("t", { columns := ["c"], nrows := 1 })]
  media := [("media__stories", [])]

/-- A turn world whose similarity search raises and whose other oracles
succeed. -/
def vectorFailWorld : AgentWorld where
  vectorSearch := fun _ => Except.error "chroma down"
  sqlInvoke := fun _ => Except.ok "db context"
  llm := fun _ => Except.ok "in-character answer"

/-- A turn world whose structured query raises, whose search raises only
for the question `qa`, and whose generation succeeds. -/
def sqlFailWorld : AgentWorld where
  vectorSearch := fun q =>
    if q == "qa" then Except.error "boom"
    else Except.ok [{ page_content := "pc" }]
  sqlInvoke := fun _ => Except.error "boom"
  llm := fun _ => Except.ok "ANS"

/-! ## Claims -/

example : DatabaseHandler.get_table_name_from_path
    ["connections", "contacts", "synced_contacts.json"]
    = some "connections__contacts__synced_contacts" := by decide

example : DatabaseHandler.get_table_name_from_path ["2017.json"]
    = some "f_2017" := by decide

example : DatabaseHandler.process_json_file ["data", "friends.json"]
    (PyJson.obj [("friends", PyJson.list
      [PyJson.obj [("name", PyJson.str "A")],
       PyJson.obj [("name", PyJson.str "B")]])])
    = [("data__friends__friends", { columns := ["name"], nrows := 2 })] := by rfl

example : DatabaseHandler.save_media_data [] "image"
    [{ path := ["extract_memora_1", "stories", "202007", "img1.jpg"],
       metadata := "m", media_description := some "cap",
       media_type := "image" }]
    = [("media__stories",
        [MediaRow.mediaRow "202007" "img1.jpg" "cap"
          "stories/202007/img1.jpg" "" "m" "image"])] := by rfl


/-- C8: for every turn that reaches the merge node (both context
responses present in the state), the merged context is exactly
`"Context from database: " ++ db_text ++ "\n\n" ++
"Context from vector search: " ++ vector_text`, in that fixed order —
the merge is a pure function of the two texts. -/
theorem combiner_renders_fixed_format (state : AgentState) (d v : String)
    (hd : state.db_response = some d) (hv : state.vector_response = some v) :
    combiner state = Except.ok { state with merged_response := some ("Context from database: " ++ d ++ "\n\n" ++ "Context from vector search: " ++ v) } := by
  have hlit : ("\n\n" ++ "Context from vector search: " : String)
      = "\n\nContext from vector search: " := rfl
  have hs : "Context from database: " ++ d ++ "\n\n" ++
      "Context from vector search: " ++ v
      = "Context from database: " ++ d ++
        "\n\nContext from vector search: " ++ v := by
    rw [String.append_assoc ("Context from database: " ++ d) "\n\n"
      "Context from vector search: ", hlit]
  rw [combiner, hd, hv, hs]

/-- Witness for C8 at a concrete state. -/
theorem combiner_renders_fixed_format_witness :
    combiner
      { query := "q", db_response := some "D",
        vector_response := some "V", memora_id := 1, memora_name := "n",
        memora_bio := "b", memora_description := "de",
        speak_pattern := "s", chat_history := "h" }
      = Except.ok
        { query := "q", db_response := some "D",
          vector_response := some "V",
          merged_response := some ("Context from database: " ++ "D" ++ "\n\n" ++ "Context from vector search: " ++ "V"),
          memora_id := 1, memora_name := "n", memora_bio := "b",
          memora_description := "de", speak_pattern := "s",
          chat_history := "h" } :=
  combiner_renders_fixed_format _ "D" "V" rfl rfl

/-- C1: invoking the ingestion entry point while the per-identity
Datastore file exists skips extraction, schema inference and the media
stage entirely (their instrumentation flags stay false), leaves the
Datastore exactly as it was, and still runs Profile Synthesis: a parsed
analyzer result carrying all three profile keys has its `ProfileSummary`
fields written onto the identity record with status `CONCLUDED`. -/
theorem skip_path_runs_analysis_only (w : World) (dbm : MemoraRecord)
    (ds : Datastore) (res : List (String × String)) (b p sp : String)
    (h : w.analyzer = Except.ok res)
    (hb : pyDictGet res "short_bio" = some b)
    (hp : pyDictGet res "detailed_profile" = some p)
    (hsp : pyDictGet res "speak_pattern" = some sp) :
    process_social_media_data w (initState true (some dbm) ds) =
      { dbFileExists := true, store := ds,
        record := some
          { dbm with
            bio := some b,
            description := some p,
            speak_pattern := some sp,
            status := MemoraStatus.CONCLUDED },
        extractDirExists := false, ranExtraction := false,
        ranSchemaInference := false, ranMediaStage := false } := by
  simp [process_social_media_data, initState, analysisSkipPath,
    assignProfileFields, h, hb, hp, hsp]

/-- Witness for C1 at a concrete world and record. -/
theorem skip_path_runs_analysis_only_witness :
    process_social_media_data (stubWorld (Except.ok stubParsed) (Except.error "unused"))
      (initState true (some stubRecord) stubStore) =
      { dbFileExists := true, store := stubStore,
        record := some
          { bio := some "B", description := some "P",
            speak_pattern := some "S",
            status := MemoraStatus.CONCLUDED },
        extractDirExists := false, ranExtraction := false,
        ranSchemaInference := false, ranMediaStage := false } :=
  skip_path_runs_analysis_only _ _ _ stubParsed "B" "P" "S" rfl rfl rfl rfl

/-- C4: whenever the job reaches Profile Synthesis over an existing
Datastore and the analysis fails — whether the analysis call itself
raises (an LLM failure or a malformed response failing `json.loads`),
or the parsed object lacks one of the three profile keys so a
subscript raises `KeyError` after the earlier assignments already
mutated the record — the record's status becomes
`CONCLUDED_WITH_ANALYZER_ERROR` with a status message, and the
Datastore, structured and media tables alike, is left exactly intact.
The conclusion exhibits the record in full for each failure shape: no
field assignment on a raised analysis, the partially assigned fields on
a `KeyError`. -/
theorem analyzer_failure_preserves_datastore (w : World)
    (dbm : MemoraRecord) (ds : Datastore) (e key : String)
    (res : List (String × String)) (dbmPartial : MemoraRecord) :
    (w.analyzer = Except.error e →
      (process_social_media_data w (initState true (some dbm) ds)).record
        = some
          { dbm with
            status := MemoraStatus.CONCLUDED_WITH_ANALYZER_ERROR,
            status_message := some ("Error in user analysis: " ++ e) } ∧
      (process_social_media_data w (initState true (some dbm) ds)).store
        = ds) ∧
    (w.analyzer = Except.ok res →
      assignProfileFields res dbm = Except.error (dbmPartial, key) →
      (process_social_media_data w (initState true (some dbm) ds)).record
        = some
          { dbmPartial with
            status := MemoraStatus.CONCLUDED_WITH_ANALYZER_ERROR,
            status_message := some ("Error in user analysis: " ++
              keyErrorStr key) } ∧
      (process_social_media_data w (initState true (some dbm) ds)).store
        = ds) := by
  constructor
  · intro h
    constructor <;>
      simp [process_social_media_data, initState, analysisSkipPath, h]
  · intro h hassign
    constructor <;>
      simp [process_social_media_data, initState, analysisSkipPath, h,
        hassign]

/-- Witness for C4 at concrete worlds: a raised analysis, and a parsed
result carrying `short_bio` but missing `detailed_profile`, whose
failure commits the partially assigned bio. -/
theorem analyzer_failure_preserves_datastore_witness :
    ((process_social_media_data (stubWorld (Except.error "bad json") (Except.error "unused"))
        (initState true (some stubRecord) stubStore)).record =
      some
        { stubRecord with
          status := MemoraStatus.CONCLUDED_WITH_ANALYZER_ERROR,
          status_message := some ("Error in user analysis: " ++ "bad json") } ∧
     (process_social_media_data (stubWorld (Except.error "bad json") (Except.error "unused"))
        (initState true (some stubRecord) stubStore)).store = stubStore) ∧
    ((process_social_media_data
        (stubWorld (Except.ok [("short_bio", "B")]) (Except.error "unused"))
        (initState true (some stubRecord) stubStore)).record =
      some
        { stubRecord with
          bio := some "B",
          status := MemoraStatus.CONCLUDED_WITH_ANALYZER_ERROR,
          status_message := some ("Error in user analysis: " ++
            keyErrorStr "detailed_profile") } ∧
     (process_social_media_data
        (stubWorld (Except.ok [("short_bio", "B")]) (Except.error "unused"))
        (initState true (some stubRecord) stubStore)).store = stubStore) :=
  ⟨(analyzer_failure_preserves_datastore
      (stubWorld (Except.error "bad json") (Except.error "unused"))
      stubRecord stubStore "bad json" "k" [] stubRecord).1 rfl,
   (analyzer_failure_preserves_datastore
      (stubWorld (Except.ok [("short_bio", "B")]) (Except.error "unused"))
      stubRecord stubStore "e" "detailed_profile" [("short_bio", "B")]
      { stubRecord with bio := some "B" }).2 rfl rfl⟩

/-- C2: on a fresh ingestion (no Datastore file) whose archive extracts
and scans successfully and whose identity record is found, the job ends
in status `ERROR`: the full-processing path accesses
`DatabaseHandler.create_memora_database`, which the class does not
define, so the raised `AttributeError` reaches the outer handler.
Moreover no fresh-path invocation whatsoever can end with status
`CONCLUDED`. -/
theorem fresh_ingestion_always_errors (w : World) (dbm : MemoraRecord)
    (ds : Datastore) (files : List (List String))
    (hz : w.zipExtract = Except.ok files) :
    DatabaseHandler.hasAttr "create_memora_database" = false ∧
    (process_social_media_data w (initState false (some dbm) ds)).record
      = some
        { dbm with
          status := MemoraStatus.ERROR,
          status_message := some ("Social media processing failed: " ++
            "type object \x27DatabaseHandler\x27 has no attribute \x27create_memora_database\x27") } ∧
    (∀ (w2 : World) (r : Option MemoraRecord) (ds2 : Datastore),
      ((process_social_media_data w2 (initState false r ds2)).record).map
          MemoraRecord.status ≠ some MemoraStatus.CONCLUDED) := by
  refine ⟨by decide, ?_, ?_⟩
  · simp [process_social_media_data, initState, hz, exceptHandler,
      finallyCleanup, DatabaseHandler.hasAttr, DatabaseHandler.attrs]
  · intro w2 r ds2
    match r with
    | none =>
      simp [process_social_media_data, initState, finallyCleanup]
    | some dbm2 =>
      match h2 : w2.zipExtract with
      | Except.error e =>
        simp [process_social_media_data, initState, h2, exceptHandler,
          finallyCleanup]
      | Except.ok files2 =>
        simp [process_social_media_data, initState, h2, exceptHandler,
          finallyCleanup, DatabaseHandler.hasAttr, DatabaseHandler.attrs]

/-- Witness for C2 at a concrete world and record. -/
theorem fresh_ingestion_always_errors_witness :
    DatabaseHandler.hasAttr "create_memora_database" = false ∧
    (process_social_media_data (stubWorld (Except.error "unused") (Except.ok [["posts.json"]]))
        (initState false (some stubRecord) {})).record =
      some
        { status := MemoraStatus.ERROR,
          status_message := some ("Social media processing failed: " ++
            "type object \x27DatabaseHandler\x27 has no attribute \x27create_memora_database\x27") } ∧
    (∀ (w2 : World) (r : Option MemoraRecord) (ds2 : Datastore),
      ((process_social_media_data w2 (initState false r ds2)).record).map
          MemoraRecord.status ≠ some MemoraStatus.CONCLUDED) :=
  fresh_ingestion_always_errors _ _ _ [["posts.json"]] rfl

/-- C10: every invocation that creates the extraction working directory
(all fresh-path invocations do, before anything else can fail) ends
with that directory removed, whatever the oracles and the record do:
success, per-file failure and hard failure all pass through the
`finally` cleanup. -/
theorem extraction_dir_always_removed (w : World)
    (r : Option MemoraRecord) (ds : Datastore) :
    (process_social_media_data w (initState false r ds)).extractDirExists
      = false := by
  match r with
  | none => simp [process_social_media_data, initState, finallyCleanup]
  | some dbm =>
    match h2 : w.zipExtract with
    | Except.error e =>
      simp [process_social_media_data, initState, h2, exceptHandler,
        finallyCleanup]
    | Except.ok files =>
      simp [process_social_media_data, initState, h2, exceptHandler,
        finallyCleanup, DatabaseHandler.hasAttr, DatabaseHandler.attrs]

/-- C5 counterexample: a failure inside the similarity-search node is
not degraded to an error string — the node has no handler, so the raised
search aborts the whole turn and the user receives the fixed fallback
message, never reaching the merge or generation nodes (the workflow
result is the propagated error). -/
theorem vector_node_failure_aborts_turn :
    generate_response vectorFailWorld "q" 1 "n" "b" "de" "s" []
      = fallbackMessage ∧
    runWorkflow vectorFailWorld
      { query := "q", memora_id := 1, memora_name := "n",
        memora_bio := "b", memora_description := "de",
        speak_pattern := "s", chat_history := formatHistory [] }
      = Except.error "chroma down" ∧
    fallbackMessage ≠ "in-character answer" := by
  refine ⟨rfl, rfl, by decide⟩

/-- C5 (amended): the asymmetric failure policy the code implements —
a failure raised inside the structured-query node is degraded to the
explicit error string `[Error querying SQL] ...` in the turn state and
the turn still proceeds through the merge and final-generation nodes;
but a failure raised inside the similarity-search node propagates and
aborts the turn with the fixed fallback message. -/
theorem node_failure_policy (w : AgentWorld)
    (q nm bio de sp e ans : String) (mid : Int)
    (hist : List (String × String)) (docs : List Doc) :
    (w.vectorSearch q = Except.error e →
      generate_response w q mid nm bio de sp hist = fallbackMessage) ∧
    (w.vectorSearch q = Except.ok docs → w.sqlInvoke q = Except.error e →
      (∀ inp, w.llm inp = Except.ok ans) →
      ∃ st, runWorkflow w
          { query := q, memora_id := mid, memora_name := nm,
            memora_bio := bio, memora_description := de,
            speak_pattern := sp, chat_history := formatHistory hist }
          = Except.ok st ∧
        st.db_response = some ("[Error querying SQL] " ++ e) ∧
        st.output = some ans ∧
        generate_response w q mid nm bio de sp hist = ans) := by
  constructor
  · intro hv
    simp [generate_response, runWorkflow, vector_searcher, hv]
  · intro hv hsql hllm
    by_cases hd : docs.isEmpty <;>
      simp [generate_response, runWorkflow, vector_searcher, hv, hd,
        db_querier, hsql, combiner, final_agent, hllm]

/-- Witness for C5 (amended) at concrete worlds and questions. -/
theorem node_failure_policy_witness :
    generate_response sqlFailWorld "qa" 1 "n" "b" "de" "s" []
      = fallbackMessage ∧
    (∃ st, runWorkflow sqlFailWorld
        { query := "qb", memora_id := 1, memora_name := "n",
          memora_bio := "b", memora_description := "de",
          speak_pattern := "s", chat_history := formatHistory [] }
        = Except.ok st ∧
      st.db_response = some ("[Error querying SQL] " ++ "boom") ∧
      st.output = some "ANS" ∧
      generate_response sqlFailWorld "qb" 1 "n" "b" "de" "s" [] = "ANS") :=
  ⟨(node_failure_policy sqlFailWorld "qa" "n" "b" "de" "s" "boom" "ANS" 1 []
      []).1 rfl,
   (node_failure_policy sqlFailWorld "qb" "n" "b" "de" "s" "boom" "ANS" 1 []
      [{ page_content := "pc" }]).2 rfl rfl (fun _ => rfl)⟩

/-! ### Lemmas about key grouping and media-table appends -/

theorem pushUniq_mem_self {a : Type} [BEq a] [LawfulBEq a]
    (ks : List a) (k : a) : k ∈ pushUniq ks k := by
  unfold pushUniq
  split
  · next h => exact List.mem_of_elem_eq_true h
  · exact List.mem_append_right _ (List.mem_singleton_self k)

theorem pushUniq_mem_of_mem {a : Type} [BEq a] (ks : List a) (k x : a)
    (h : x ∈ ks) : x ∈ pushUniq ks k := by
  unfold pushUniq
  split
  · exact h
  · exact List.mem_append_left _ h

theorem mem_foldl_pushUniq {a : Type} [BEq a] [LawfulBEq a]
    (l : List a) (acc : List a) (x : a) (h : x ∈ acc ∨ x ∈ l) :
    x ∈ l.foldl pushUniq acc := by
  induction l generalizing acc with
  | nil => simpa using h
  | cons y ys ih =>
    rw [List.foldl_cons]
    rcases h with h | h
    · exact ih _ (Or.inl (pushUniq_mem_of_mem _ _ _ h))
    · rcases List.mem_cons.mp h with rfl | h
      · exact ih _ (Or.inl (pushUniq_mem_self _ _))
      · exact ih _ (Or.inr h)

theorem mem_dedupKeys (l : List String) (x : String) (h : x ∈ l) :
    x ∈ dedupKeys l :=
  mem_foldl_pushUniq l [] x (Or.inr h)

theorem groupKeys_eq_nil_aux (items : List MediaRecord)
    (ks : List (String × String))
    (h : ∀ it ∈ items, DatabaseHandler.dateOf it.path = none) :
    items.foldl
      (fun ks item =>
        match DatabaseHandler.dateOf item.path with
        | none => ks
        | some d => pushUniq ks (DatabaseHandler.folderOf item.path, d))
      ks = ks := by
  induction items generalizing ks with
  | nil => rfl
  | cons it rest ih =>
    rw [List.foldl_cons, h it (List.mem_cons_self it rest)]
    exact ih _ (fun x hx => h x (List.mem_cons_of_mem it hx))

theorem groupKeys_eq_nil (items : List MediaRecord)
    (h : ∀ it ∈ items, DatabaseHandler.dateOf it.path = none) :
    DatabaseHandler.groupKeys items = [] :=
  groupKeys_eq_nil_aux items [] h

theorem mem_groupKeys_aux (items : List MediaRecord)
    (ks : List (String × String)) (k : String × String)
    (h : k ∈ ks ∨ ∃ it ∈ items, DatabaseHandler.dateOf it.path = some k.2 ∧
      DatabaseHandler.folderOf it.path = k.1) :
    k ∈ items.foldl
      (fun ks item =>
        match DatabaseHandler.dateOf item.path with
        | none => ks
        | some d => pushUniq ks (DatabaseHandler.folderOf item.path, d))
      ks := by
  induction items generalizing ks with
  | nil =>
    rcases h with h | ⟨it, hit, _⟩
    · simpa using h
    · simp at hit
  | cons it rest ih =>
    rw [List.foldl_cons]
    rcases h with h | ⟨it2, hit2, hd, hf⟩
    · rcases hdate : DatabaseHandler.dateOf it.path with _ | d
      · simpa [hdate] using ih ks (Or.inl h)
      · simpa [hdate] using ih _ (Or.inl (pushUniq_mem_of_mem _ _ _ h))
    · rcases List.mem_cons.mp hit2 with rfl | hmem
      · rw [hd]
        refine ih _ (Or.inl ?_)
        rw [hf]
        simpa using pushUniq_mem_self ks (k.1, k.2)
      · rcases hdate : DatabaseHandler.dateOf it.path with _ | d
        · exact ih ks (Or.inr ⟨it2, hmem, hd, hf⟩)
        · exact ih _ (Or.inr ⟨it2, hmem, hd, hf⟩)

theorem mem_groupKeys (items : List MediaRecord) (it : MediaRecord)
    (d : String) (hit : it ∈ items)
    (hd : DatabaseHandler.dateOf it.path = some d) :
    (DatabaseHandler.folderOf it.path, d) ∈ DatabaseHandler.groupKeys items :=
  mem_groupKeys_aux items [] _ (Or.inr ⟨it, hit, hd, rfl⟩)

theorem appendMap_id (rest : List (String × List MediaRow)) (name : String)
    (rows : List MediaRow)
    (h : (rest.any (fun kv => kv.1 == name)) = false) :
    rest.map (fun kv => if kv.1 == name then (kv.1, kv.2 ++ rows) else kv)
      = rest := by
  induction rest with
  | nil => rfl
  | cons kv r ih =>
    rw [List.any_cons, Bool.or_eq_false_iff] at h
    rw [List.map_cons, if_neg (by simp [h.1]), ih h.2]

theorem lookupRows_cons (kv : String × List MediaRow)
    (rest : List (String × List MediaRow)) (tbl : String) :
    DatabaseHandler.lookupRows (kv :: rest) tbl
      = if kv.1 == tbl then kv.2 else DatabaseHandler.lookupRows rest tbl :=
  rfl

theorem lookupRows_append_new (db : List (String × List MediaRow))
    (name tbl : String) (rows : List MediaRow)
    (hne : (name == tbl) = false) :
    DatabaseHandler.lookupRows (db ++ [(name, rows)]) tbl
      = DatabaseHandler.lookupRows db tbl := by
  induction db with
  | nil =>
    rw [List.nil_append, lookupRows_cons, if_neg (by simp [hne])]
  | cons kv rest ih =>
    rw [List.cons_append, lookupRows_cons, lookupRows_cons, ih]

theorem lookupRows_append_self_of_absent (db : List (String × List MediaRow))
    (name : String) (rows : List MediaRow)
    (h : (db.any (fun kv => kv.1 == name)) = false) :
    DatabaseHandler.lookupRows (db ++ [(name, rows)]) name
      = DatabaseHandler.lookupRows db name ++ rows := by
  induction db with
  | nil =>
    rw [List.nil_append, lookupRows_cons, if_pos (by simp)]
    rfl
  | cons kv rest ih =>
    rw [List.any_cons, Bool.or_eq_false_iff] at h
    rw [List.cons_append, lookupRows_cons, lookupRows_cons,
      if_neg (by simp [h.1]), if_neg (by simp [h.1]), ih h.2]

theorem lookupRows_appendMediaTable_self
    (db : List (String × List MediaRow)) (name : String)
    (rows : List MediaRow) :
    DatabaseHandler.lookupRows (DatabaseHandler.appendMediaTable db name rows)
      name = DatabaseHandler.lookupRows db name ++ rows := by
  induction db with
  | nil =>
    rw [DatabaseHandler.appendMediaTable, if_neg (by simp), List.nil_append,
      lookupRows_cons, if_pos (by simp)]
    rfl
  | cons kv rest ih =>
    rw [DatabaseHandler.appendMediaTable]
    by_cases hany : ((kv :: rest).any (fun kv => kv.1 == name)) = true
    · rw [if_pos hany, List.map_cons]
      by_cases hk : (kv.1 == name) = true
      · have hkeq := eq_of_beq hk
        rw [if_pos hk, lookupRows_cons, if_pos (by simp [hkeq]),
          lookupRows_cons, if_pos (by simp [hkeq])]
      · rw [Bool.not_eq_true] at hk
        have ha : (rest.any (fun kv => kv.1 == name)) = true := by
          rw [List.any_cons, Bool.or_eq_true] at hany
          rcases hany with h1 | h1
          · rw [hk] at h1
            exact absurd h1 (by simp)
          · exact h1
        have h2 := ih
        rw [DatabaseHandler.appendMediaTable, if_pos ha] at h2
        rw [if_neg (by simp [hk]), lookupRows_cons, if_neg (by simp [hk]),
          lookupRows_cons, if_neg (by simp [hk]), h2]
    · rw [Bool.not_eq_true] at hany
      rw [if_neg (by simp [hany])]
      exact lookupRows_append_self_of_absent _ _ _ hany

theorem lookupRows_appendMediaTable_other
    (db : List (String × List MediaRow)) (name tbl : String)
    (rows : List MediaRow) (h : (tbl == name) = false) :
    DatabaseHandler.lookupRows (DatabaseHandler.appendMediaTable db name rows)
      tbl = DatabaseHandler.lookupRows db tbl := by
  have hnt : ¬ (name = tbl) := by
    intro he
    subst he
    simp at h
  have hnb : (name == tbl) = false := by
    cases hx : (name == tbl) with
    | false => rfl
    | true => exact absurd (eq_of_beq hx) hnt
  induction db with
  | nil =>
    rw [DatabaseHandler.appendMediaTable, if_neg (by simp), List.nil_append,
      lookupRows_cons, if_neg (by simp [hnb])]
  | cons kv rest ih =>
    have hmapRest : DatabaseHandler.lookupRows
        (rest.map (fun kv => if kv.1 == name then (kv.1, kv.2 ++ rows) else kv))
        tbl = DatabaseHandler.lookupRows rest tbl := by
      by_cases ha : (rest.any (fun kv => kv.1 == name)) = true
      · have h2 := ih
        rw [DatabaseHandler.appendMediaTable, if_pos ha] at h2
        exact h2
      · rw [Bool.not_eq_true] at ha
        rw [appendMap_id rest name rows ha]
    rw [DatabaseHandler.appendMediaTable]
    by_cases hany : ((kv :: rest).any (fun kv => kv.1 == name)) = true
    · rw [if_pos hany, List.map_cons]
      by_cases hk : (kv.1 == name) = true
      · have hkeq := eq_of_beq hk
        rw [if_pos hk, lookupRows_cons, if_neg (by simp [hkeq, hnb]),
          lookupRows_cons, if_neg (by simp [hkeq, hnb]), hmapRest]
      · rw [Bool.not_eq_true] at hk
        by_cases hkt : (kv.1 == tbl) = true
        · rw [if_neg (by simp [hk]), lookupRows_cons, if_pos hkt,
            lookupRows_cons, if_pos hkt]
        · rw [Bool.not_eq_true] at hkt
          rw [if_neg (by simp [hk]), lookupRows_cons, if_neg (by simp [hkt]),
            lookupRows_cons, if_neg (by simp [hkt]), hmapRest]
    · rw [Bool.not_eq_true] at hany
      rw [if_neg (by simp [hany])]
      exact lookupRows_append_new _ _ _ _ hnb

theorem lookupRows_saveFold_extends (fs : List String)
    (R : String → List MediaRow) (db : List (String × List MediaRow))
    (tbl : String) :
    ∃ added, DatabaseHandler.lookupRows
        (fs.foldl (fun db f =>
          DatabaseHandler.appendMediaTable db ("media__" ++ f) (R f)) db) tbl
      = DatabaseHandler.lookupRows db tbl ++ added := by
  induction fs generalizing db with
  | nil => exact ⟨[], by simp⟩
  | cons f fs ih =>
    obtain ⟨added, hadded⟩ :=
      ih (DatabaseHandler.appendMediaTable db ("media__" ++ f) (R f))
    rw [List.foldl_cons]
    by_cases ht : (tbl == "media__" ++ f) = true
    · have hteq := eq_of_beq ht
      subst hteq
      refine ⟨R f ++ added, ?_⟩
      rw [hadded, lookupRows_appendMediaTable_self, List.append_assoc]
    · rw [Bool.not_eq_true] at ht
      refine ⟨added, ?_⟩
      rw [hadded, lookupRows_appendMediaTable_other _ _ _ _ ht]

theorem lookupRows_saveFold_mem (fs : List String)
    (R : String → List MediaRow) (db : List (String × List MediaRow))
    (f : String) (x : MediaRow) (hf : f ∈ fs) (hx : x ∈ R f) :
    x ∈ DatabaseHandler.lookupRows
      (fs.foldl (fun db g =>
        DatabaseHandler.appendMediaTable db ("media__" ++ g) (R g)) db)
      ("media__" ++ f) := by
  induction fs generalizing db with
  | nil => simp at hf
  | cons g gs ih =>
    rw [List.foldl_cons]
    rcases List.mem_cons.mp hf with rfl | hmem
    · obtain ⟨added, hadded⟩ := lookupRows_saveFold_extends gs R
        (DatabaseHandler.appendMediaTable db ("media__" ++ f) (R f))
        ("media__" ++ f)
      rw [hadded, lookupRows_appendMediaTable_self]
      exact List.mem_append_left _ (List.mem_append_right _ hx)
    · exact ih _ hmem

/-- C7 counterexample: a media record whose path carries a 6-digit time
bucket but no folder of the closed vocabulary is persisted into table
`media__others` — not the table `media__other` the claim names. -/
theorem media_default_bucket_is_others :
    DatabaseHandler.save_media_data [] "image"
      [{ path := ["x", "201807", "pic.jpg"], metadata := "m",
         media_type := "image" }]
      = [("media__others",
          [MediaRow.mediaRow "201807" "pic.jpg" "" "x/201807/pic.jpg" "" "m"
            "image"])] ∧
    ("media__others" : String) ≠ "media__other" :=
  ⟨rfl, by decide⟩

theorem beq_symm_false {a : Type} [BEq a] [LawfulBEq a] (x y : a)
    (h : (x == y) = false) : (y == x) = false := by
  cases hx : (y == x) with
  | false => rfl
  | true =>
    have := eq_of_beq hx
    subst this
    simp at h

theorem lookupRows_saveFold_eq (fs : List String)
    (R : String → List MediaRow) (db : List (String × List MediaRow))
    (tbl : String) :
    DatabaseHandler.lookupRows
        (fs.foldl (fun db f =>
          DatabaseHandler.appendMediaTable db ("media__" ++ f) (R f)) db) tbl
      = DatabaseHandler.lookupRows db tbl ++
        (fs.filter (fun f => ("media__" ++ f) == tbl)).flatMap R := by
  induction fs generalizing db with
  | nil => simp
  | cons f fs ih =>
    rw [List.foldl_cons, ih]
    by_cases ht : (("media__" ++ f) == tbl) = true
    · have hteq := eq_of_beq ht
      subst hteq
      rw [lookupRows_appendMediaTable_self, List.filter_cons,
        if_pos (by simp), List.flatMap_cons, List.append_assoc]
    · rw [Bool.not_eq_true] at ht
      rw [lookupRows_appendMediaTable_other _ _ _ _ (beq_symm_false _ _ ht),
        List.filter_cons, if_neg (by simp [ht])]

theorem mediaRowsFor_src (mt : String) (items : List MediaRecord)
    (tbl : String) (r : MediaRow)
    (h : r ∈ DatabaseHandler.mediaRowsFor mt items tbl) :
    ∃ it ∈ items, ∃ d, DatabaseHandler.dateOf it.path = some d ∧
      r = DatabaseHandler.rowOf mt d it ∧
      tbl = "media__" ++ DatabaseHandler.folderOf it.path := by
  rw [DatabaseHandler.mediaRowsFor] at h
  obtain ⟨f, hf, hrF⟩ := List.mem_flatMap.mp h
  have htbl : "media__" ++ f = tbl := eq_of_beq (List.mem_filter.mp hf).2
  rw [DatabaseHandler.rowsOfFolder] at hrF
  obtain ⟨k, hk, hrK⟩ := List.mem_flatMap.mp hrF
  have hk1 : k.1 = f := eq_of_beq (List.mem_filter.mp hk).2
  rw [DatabaseHandler.rowsOfKey] at hrK
  obtain ⟨it, hit, hfn⟩ := List.mem_filterMap.mp hrK
  cases hdate : DatabaseHandler.dateOf it.path with
  | none =>
    rw [hdate] at hfn
    simp at hfn
  | some d =>
    rw [hdate] at hfn
    by_cases hkey : ((DatabaseHandler.folderOf it.path, d) == k) = true
    · have hr : r = DatabaseHandler.rowOf mt d it := by
        simp [hkey] at hfn
        exact hfn.symm
      have hfeq : DatabaseHandler.folderOf it.path = f := by
        have hc := congrArg Prod.fst (eq_of_beq hkey)
        rw [hk1] at hc
        exact hc
      refine ⟨it, hit, d, hdate, hr, ?_⟩
      rw [← htbl, hfeq]
    · simp [hkey] at hfn

/-- C7 (amended): `save_media_data` writes every table by appending
exactly its folder-group rows. The theorem characterizes the whole
write for an arbitrary, mixed batch: (1) each table's final contents
are its previous rows followed by `mediaRowsFor` — so existing rows are
always retained; (2) every appended row originates from a record whose
path carries a 6-digit time bucket and lands in the `media__<bucket>`
table of that record's folder (first vocabulary segment, `others` when
none is present) — so a record without a time bucket contributes no
row to any table, also in a batch mixing dated and undated records;
(3) every dated record's row is present in its table. -/
theorem save_media_data_buckets (db : List (String × List MediaRow))
    (mt : String) (items : List MediaRecord) :
    (∀ tbl, DatabaseHandler.lookupRows
        (DatabaseHandler.save_media_data db mt items) tbl
      = DatabaseHandler.lookupRows db tbl ++
        DatabaseHandler.mediaRowsFor mt items tbl) ∧
    (∀ tbl r, r ∈ DatabaseHandler.mediaRowsFor mt items tbl →
      ∃ it ∈ items, ∃ d, DatabaseHandler.dateOf it.path = some d ∧
        r = DatabaseHandler.rowOf mt d it ∧
        tbl = "media__" ++ DatabaseHandler.folderOf it.path) ∧
    (∀ it ∈ items, ∀ d, DatabaseHandler.dateOf it.path = some d →
      DatabaseHandler.rowOf mt d it ∈ DatabaseHandler.lookupRows
        (DatabaseHandler.save_media_data db mt items)
        ("media__" ++ DatabaseHandler.folderOf it.path)) := by
  refine ⟨?_, ?_, ?_⟩
  · intro tbl
    rw [DatabaseHandler.save_media_data, DatabaseHandler.mediaRowsFor]
    exact lookupRows_saveFold_eq _ _ db tbl
  · intro tbl r h
    exact mediaRowsFor_src mt items tbl r h
  · intro it hit d hd
    have hkey : (DatabaseHandler.folderOf it.path, d)
        ∈ DatabaseHandler.groupKeys items := mem_groupKeys items it d hit hd
    have hrow : DatabaseHandler.rowOf mt d it
        ∈ DatabaseHandler.rowsOfKey mt items
          (DatabaseHandler.folderOf it.path, d) := by
      rw [DatabaseHandler.rowsOfKey]
      apply List.mem_filterMap.mpr
      exact ⟨it, hit, by simp [hd]⟩
    have hrowsF : DatabaseHandler.rowOf mt d it
        ∈ DatabaseHandler.rowsOfFolder mt items
          (DatabaseHandler.folderOf it.path) := by
      rw [DatabaseHandler.rowsOfFolder]
      apply List.mem_flatMap.mpr
      refine ⟨(DatabaseHandler.folderOf it.path, d), ?_, hrow⟩
      apply List.mem_filter.mpr
      exact ⟨hkey, by simp⟩
    have hfold : DatabaseHandler.folderOf it.path
        ∈ DatabaseHandler.folderKeys items := by
      apply mem_dedupKeys
      exact List.mem_map_of_mem Prod.fst hkey
    rw [DatabaseHandler.save_media_data]
    exact lookupRows_saveFold_mem _ _ db _ _ hfold hrowsF

/-- Witness for C7 (amended) at a concrete mixed batch — one dated and
one undated record — over a concrete pre-populated store. -/
theorem save_media_data_buckets_witness :
    (DatabaseHandler.lookupRows
        (DatabaseHandler.save_media_data
          [("media__stories",
            [MediaRow.mediaRow "202001" "old.jpg" "" "u" "" "m0" "image"])]
          "image"
          [{ path := ["stories", "201807", "a.jpg"], metadata := "m",
             media_type := "image" },
           { path := ["stories", "nodate.jpg"], metadata := "m",
             media_type := "image" }])
        "media__stories"
      = DatabaseHandler.lookupRows
          [("media__stories",
            [MediaRow.mediaRow "202001" "old.jpg" "" "u" "" "m0" "image"])]
          "media__stories" ++
        DatabaseHandler.mediaRowsFor "image"
          [{ path := ["stories", "201807", "a.jpg"], metadata := "m",
             media_type := "image" },
           { path := ["stories", "nodate.jpg"], metadata := "m",
             media_type := "image" }]
          "media__stories") ∧
    (∃ it ∈ ([{ path := ["stories", "201807", "a.jpg"], metadata := "m",
                media_type := "image" },
              { path := ["stories", "nodate.jpg"], metadata := "m",
                media_type := "image" }] : List MediaRecord),
      ∃ d, DatabaseHandler.dateOf it.path = some d ∧
        DatabaseHandler.rowOf "image" "201807"
            { path := ["stories", "201807", "a.jpg"], metadata := "m",
              media_type := "image" }
          = DatabaseHandler.rowOf "image" d it ∧
        ("media__stories" : String)
          = "media__" ++ DatabaseHandler.folderOf it.path) ∧
    DatabaseHandler.rowOf "image" "201807"
        { path := ["stories", "201807", "a.jpg"], metadata := "m",
          media_type := "image" }
      ∈ DatabaseHandler.lookupRows
        (DatabaseHandler.save_media_data
          [("media__stories",
            [MediaRow.mediaRow "202001" "old.jpg" "" "u" "" "m0" "image"])]
          "image"
          [{ path := ["stories", "201807", "a.jpg"], metadata := "m",
             media_type := "image" },
           { path := ["stories", "nodate.jpg"], metadata := "m",
             media_type := "image" }])
        ("media__" ++ DatabaseHandler.folderOf ["stories", "201807", "a.jpg"]) :=
  ⟨(save_media_data_buckets
      [("media__stories",
        [MediaRow.mediaRow "202001" "old.jpg" "" "u" "" "m0" "image"])]
      "image"
      [{ path := ["stories", "201807", "a.jpg"], metadata := "m",
         media_type := "image" },
       { path := ["stories", "nodate.jpg"], metadata := "m",
         media_type := "image" }]).1 "media__stories",
   (save_media_data_buckets
      [("media__stories",
        [MediaRow.mediaRow "202001" "old.jpg" "" "u" "" "m0" "image"])]
      "image"
      [{ path := ["stories", "201807", "a.jpg"], metadata := "m",
         media_type := "image" },
       { path := ["stories", "nodate.jpg"], metadata := "m",
         media_type := "image" }]).2.1 "media__stories"
     (DatabaseHandler.rowOf "image" "201807"
       { path := ["stories", "201807", "a.jpg"], metadata := "m",
         media_type := "image" })
     (by decide),
   (save_media_data_buckets
      [("media__stories",
        [MediaRow.mediaRow "202001" "old.jpg" "" "u" "" "m0" "image"])]
      "image"
      [{ path := ["stories", "201807", "a.jpg"], metadata := "m",
         media_type := "image" },
       { path := ["stories", "nodate.jpg"], metadata := "m",
         media_type := "image" }]).2.2 _
     (List.mem_cons_self _ _) "201807" (by decide)⟩

/-- C9 counterexample: the posts list `[ {} ]` is non-empty, yet its
normalized frame has no columns, so the final filter drops it — the
document `{"posts": [{}], "settings": {}}` yields no table at all
rather than exactly one. -/
theorem empty_post_record_yields_no_table :
    DatabaseHandler.process_json_file ["f.json"]
      (PyJson.obj [("posts", PyJson.list [PyJson.obj []]),
        ("settings", PyJson.obj [])]) = [] := by rfl

/-- C9 (amended): processing a JSON file whose top-level value is
`{"posts": [...], "settings": {}}`, where the posts list is non-empty,
all its elements are objects, and its normalized frame has at least one
column, yields exactly one table, named `<base>__posts`; the empty
settings object yields none. -/
theorem process_json_posts_settings (parts : List String) (name : String)
    (ps : List PyJson)
    (hname : DatabaseHandler.get_table_name_from_path parts = some name)
    (hne : ps ≠ [])
    (hobj : ps.all PyJson.isObj = true)
    (hcols : dedupKeys (ps.flatMap (fun r => recordColumns r.fields)) ≠ []) :
    DatabaseHandler.process_json_file parts
      (PyJson.obj [("posts", PyJson.list ps), ("settings", PyJson.obj [])])
      = [(name ++ "__posts",
          { columns := dedupKeys (ps.flatMap (fun r => recordColumns r.fields)),
            nrows := ps.length })] := by
  have hlen : ps.length ≠ 0 := fun h => hne (List.length_eq_zero.mp h)
  have hlit : ("__" ++ "posts" : String) = "__posts" := rfl
  have hjoin : name ++ "__" ++ "posts" = name ++ "__posts" := by
    rw [String.append_assoc, hlit]
  simp [DatabaseHandler.process_json_file, hname,
    DatabaseHandler.processObjKeys, pd_json_normalize, hobj, hne, hlen, hcols,
    Except.map, hjoin]

/-- Witness for C9 (amended) at a concrete document. -/
theorem process_json_posts_settings_witness :
    DatabaseHandler.process_json_file ["f.json"]
      (PyJson.obj [("posts", PyJson.list [PyJson.obj [("a", PyJson.str "1")]]),
        ("settings", PyJson.obj [])])
      = [("f__posts", { columns := ["a"], nrows := 1 })] :=
  (process_json_posts_settings ["f.json"] "f"
    [PyJson.obj [("a", PyJson.str "1")]] rfl (List.cons_ne_nil _ _) rfl
    (by decide)).trans rfl

/-- C3 counterexample: an ingestion run over an archive holding exactly
one audio file persists no media-annotation record at all. The
classifier does bucket the mp3, but the entry point assembles
`media_files` from the six image extensions alone (line 303), so no
audio file is ever handed to the media batch — and the run ends in the
missing-attribute error regardless, so the media tables stay empty. -/
theorem audio_files_contribute_no_records :
    scan_files [["a.mp3"]] "mp3" = [["a.mp3"]] ∧
    mediaFilesOf [["a.mp3"]] = [] ∧
    (process_social_media_data
        (stubWorld (Except.error "unused") (Except.ok [["a.mp3"]]))
        (initState false (some stubRecord) {})).store.media = [] :=
  ⟨rfl, rfl, rfl⟩

theorem process_audio_file_type (w : BatchWorld) (p : List String) :
    (process_audio_file w p).media_type = "audio" := by
  cases h : w.audioRead p <;> simp [process_audio_file, h]

theorem filter_audio_of_imageRecords (w : BatchWorld)
    (l : List (List String)) :
    (l.filterMap (process_image_file w)).filter
      (fun r => r.media_type == "audio") = [] := by
  induction l with
  | nil => rfl
  | cons p ps ih =>
    cases h : w.imageRead p <;> simp [process_image_file, h, ih]

/-- C3 (amended): the media batch itself treats audio exactly as the
claim describes — given a path list, its audio records are one per audio
file in order, and a per-file failure yields the record with empty
text, segments and language instead of aborting the batch — but the
ingestion entry point passes only image-extension files to the batch,
so no audio file of an archive ever contributes a record to the
persisted media tables. -/
theorem batch_processes_every_audio_file (w : BatchWorld)
    (paths : List (List String)) (fpath p : List String) (e : String)
    (files : List (List String))
    (hb : w.blipSetup = Except.ok ()) (hw : w.whisperSetup = Except.ok ()) :
    ((process_files_batch w paths).filter
        (fun r => r.media_type == "audio")
      = (paths.filter
          (fun q => audio_extensions.contains (pathSuffix q))).map
          (process_audio_file w)) ∧
    (w.audioRead fpath = Except.error e →
      process_audio_file w fpath =
        { path := fpath, metadata := DatabaseHandler.emptyJsonObj,
          text := some "", segments := some "[]", language := some "",
          media_type := "audio" }) ∧
    (p ∈ mediaFilesOf files →
      audio_extensions.contains (pathSuffix p) = false) := by
  refine ⟨?_, ?_, ?_⟩
  · rw [process_files_batch]
    simp only [hb, hw, ite_self]
    rw [List.filter_append, filter_audio_of_imageRecords, List.append_nil,
      List.filter_map]
    rw [List.filter_eq_self.mpr]
    intro x hx
    rw [Function.comp_apply, process_audio_file_type]
    rfl
  · intro h
    simp [process_audio_file, h]
  · intro hp
    obtain ⟨ext, hext, hscan⟩ := List.mem_flatMap.mp hp
    rw [scan_files] at hscan
    by_cases hk : knownExts.contains ext = true
    · rw [if_pos hk] at hscan
      have hsl : sliceFrom1 (pathSuffix p) = ext :=
        eq_of_beq (List.mem_filter.mp hscan).2
      cases hx : audio_extensions.contains (pathSuffix p) with
      | false => rfl
      | true =>
        have hmem : pathSuffix p ∈ audio_extensions :=
          List.mem_of_elem_eq_true hx
        rw [audio_extensions] at hmem
        simp only [List.mem_cons, List.not_mem_nil, or_false] at hmem
        rcases hmem with h | h | h <;>
          (rw [h] at hsl; rw [← hsl] at hext; exact absurd hext (by decide))
    · rw [if_neg hk] at hscan
      exact absurd hscan (List.not_mem_nil p)

/-- Witness for C3 (amended) at a concrete batch and archive. -/
theorem batch_processes_every_audio_file_witness :
    ((process_files_batch
        (stubWorld (Except.error "x") (Except.error "x")).batch
        [["a.mp3"], ["b.jpg"]]).filter (fun r => r.media_type == "audio")
      = ([["a.mp3"], ["b.jpg"]].filter
          (fun q => audio_extensions.contains (pathSuffix q))).map
          (process_audio_file
            (stubWorld (Except.error "x") (Except.error "x")).batch)) ∧
    process_audio_file (stubWorld (Except.error "x") (Except.error "x")).batch
        ["a.mp3"]
      = { path := ["a.mp3"], metadata := DatabaseHandler.emptyJsonObj,
          text := some "", segments := some "[]", language := some "",
          media_type := "audio" } ∧
    audio_extensions.contains (pathSuffix ["c.png"]) = false :=
  ⟨(batch_processes_every_audio_file
      (stubWorld (Except.error "x") (Except.error "x")).batch
      [["a.mp3"], ["b.jpg"]] ["a.mp3"] ["c.png"] "unused" [["c.png"]]
      rfl rfl).1,
   (batch_processes_every_audio_file
      (stubWorld (Except.error "x") (Except.error "x")).batch
      [["a.mp3"], ["b.jpg"]] ["a.mp3"] ["c.png"] "unused" [["c.png"]]
      rfl rfl).2.1 rfl,
   (batch_processes_every_audio_file
      (stubWorld (Except.error "x") (Except.error "x")).batch
      [["a.mp3"], ["b.jpg"]] ["a.mp3"] ["c.png"] "unused" [["c.png"]]
      rfl rfl).2.2 (by decide)⟩

/-! ### Lemmas for table-name sanitization -/

theorem pyIsAlpha_ascii (c : Char) (hc : c.toNat < 128)
    (h : pyIsAlpha c = true) : c.isAlpha = true := by
  rw [pyIsAlpha] at h
  simp only [Bool.or_eq_true, Bool.and_eq_true, beq_iff_eq, bne_iff_ne,
    decide_eq_true_eq] at h
  rcases h with (((h | h) | h) | h) | h
  · exact h
  · omega
  · omega
  · omega
  · rcases h with ⟨⟨⟨h1, _⟩, _⟩, _⟩
    omega

theorem pyIsDigitChar_ascii (c : Char) (hc : c.toNat < 128)
    (h : pyIsDigitChar c = true) : c.isDigit = true := by
  rw [pyIsDigitChar] at h
  simp only [Bool.or_eq_true, beq_iff_eq] at h
  rcases h with ((h | h) | h) | h
  · exact h
  · omega
  · omega
  · omega

theorem pyIsAlnum_ascii (c : Char) (hc : c.toNat < 128)
    (h : pyIsAlnum c = true) : c.isAlphanum = true := by
  rw [pyIsAlnum, Bool.or_eq_true] at h
  rcases h with h | h
  · rw [Char.isAlphanum, Bool.or_eq_true]
    exact Or.inl (pyIsAlpha_ascii c hc h)
  · rw [pyIsNumericChar] at h
    simp only [Bool.or_eq_true, beq_iff_eq] at h
    rcases h with ((h | h) | h) | h
    · rw [Char.isAlphanum, Bool.or_eq_true]
      exact Or.inr (pyIsDigitChar_ascii c hc h)
    · omega
    · omega
    · omega

theorem allAscii_append (a b : String) :
    allAscii (a ++ b) = (allAscii a && allAscii b) := by
  simp [allAscii, String.toList, String.data_append]

theorem allAscii_stripSuffix (s : String) (h : allAscii s = true) :
    allAscii (DatabaseHandler.stripSuffix s) = true := by
  simp only [DatabaseHandler.stripSuffix]
  split
  · exact h
  · split
    · rw [allAscii, List.all_eq_true] at h ⊢
      intro c hcmem
      exact h c (List.mem_of_mem_take (by simpa using hcmem))
    · exact h

theorem allAscii_joinUnderscore (l : List String)
    (h : ∀ p ∈ l, allAscii p = true) :
    allAscii (DatabaseHandler.joinUnderscore l) = true := by
  induction l with
  | nil => rfl
  | cons p rest ih =>
    cases rest with
    | nil => exact h p (List.mem_singleton_self p)
    | cons q rest2 =>
      simp only [DatabaseHandler.joinUnderscore]
      simp only [allAscii_append, Bool.and_eq_true]
      refine ⟨⟨h p (List.mem_cons_self p _), rfl⟩,
        ih (fun x hx => h x (List.mem_cons_of_mem p hx))⟩

theorem allAscii_mapLast (parts : List String)
    (h : ∀ p ∈ parts, allAscii p = true) :
    ∀ q ∈ DatabaseHandler.mapLast DatabaseHandler.stripSuffix parts,
      allAscii q = true := by
  induction parts with
  | nil =>
    intro q hq
    simp [DatabaseHandler.mapLast] at hq
  | cons p rest ih =>
    intro q hq
    cases rest with
    | nil =>
      simp only [DatabaseHandler.mapLast, List.mem_singleton] at hq
      subst hq
      exact allAscii_stripSuffix p (h p (List.mem_singleton_self p))
    | cons r rest2 =>
      simp only [DatabaseHandler.mapLast] at hq
      rcases List.mem_cons.mp hq with rfl | hq2
      · exact h q (List.mem_cons_self q _)
      · exact ih (fun x hx => h x (List.mem_cons_of_mem p hx)) q hq2

theorem cleanTableName_toList (s : String) :
    (DatabaseHandler.cleanTableName s).toList
      = s.toList.map (fun c => if pyIsAlnum c || c == '_' then c else '_') :=
  rfl

theorem clean_char_ascii_word (s : String) (hascii : allAscii s = true)
    (c : Char) (hmem : c ∈ (DatabaseHandler.cleanTableName s).toList) :
    c.toNat < 128 ∧ (c.isAlphanum || c == '_') = true := by
  rw [cleanTableName_toList] at hmem
  obtain ⟨c0, hc0mem, hc0eq⟩ := List.mem_map.mp hmem
  rw [allAscii, List.all_eq_true] at hascii
  have hc0ascii : c0.toNat < 128 := by simpa using hascii c0 hc0mem
  by_cases hg : (pyIsAlnum c0 || c0 == '_') = true
  · rw [if_pos hg] at hc0eq
    subst hc0eq
    rw [Bool.or_eq_true] at hg
    rcases hg with hg | hg
    · exact ⟨hc0ascii,
        by rw [Bool.or_eq_true]; exact Or.inl (pyIsAlnum_ascii c0 hc0ascii hg)⟩
    · exact ⟨hc0ascii, by rw [Bool.or_eq_true]; exact Or.inr hg⟩
  · rw [if_neg hg] at hc0eq
    subst hc0eq
    exact ⟨by decide, by decide⟩

theorem matchesAsciiIdent_of_toList (s : String) (c : Char) (cs : List Char)
    (h : s.toList = c :: cs) (hc : c.isAlpha = true)
    (hcs : ∀ d ∈ cs, (d.isAlphanum || d == '_') = true) :
    matchesAsciiIdent s = true := by
  unfold matchesAsciiIdent
  rw [h]
  show (c.isAlpha && cs.all (fun d => d.isAlphanum || d == '_')) = true
  rw [Bool.and_eq_true]
  exact ⟨hc, List.all_eq_true.mpr hcs⟩

/-- C6 counterexample: the sanitizer keeps every character Python's
Unicode-aware `str.isalnum` accepts and the leading-letter check uses
the equally Unicode-aware `str.isalpha`, so the one-component path
`U+00E9` (a Latin small letter e with acute) is returned unchanged as a
table name — and it does not match `^[A-Za-z][A-Za-z0-9_]*$`. -/
theorem table_name_can_leave_ascii :
    DatabaseHandler.get_table_name_from_path [String.mk [Char.ofNat 0xE9]]
      = some (String.mk [Char.ofNat 0xE9]) ∧
    matchesAsciiIdent (String.mk [Char.ofNat 0xE9]) = false :=
  ⟨rfl, rfl⟩

/-- C6 (amended): for every table-name input whose path components are
ASCII (and whose joined, extension-stripped name is non-empty, so the
indexing in the leading-letter check does not raise), the sanitized
table name matches `^[A-Za-z][A-Za-z0-9_]*$`. On non-ASCII input only
the Unicode analogue holds, as the counterexample shows. -/
theorem table_name_ascii_shape (parts : List String)
    (hascii : ∀ pt ∈ parts, allAscii pt = true)
    (hne : DatabaseHandler.joinUnderscore
      (DatabaseHandler.mapLast DatabaseHandler.stripSuffix parts) ≠ "") :
    ∃ name, DatabaseHandler.get_table_name_from_path parts = some name ∧
      matchesAsciiIdent name = true := by
  set tn : String := DatabaseHandler.joinUnderscore
    (DatabaseHandler.mapLast DatabaseHandler.stripSuffix parts) with htn
  have hjascii : allAscii tn = true := by
    rw [htn]
    exact allAscii_joinUnderscore _ (allAscii_mapLast parts hascii)
  have hctne : (DatabaseHandler.cleanTableName tn).toList ≠ [] := by
    rw [cleanTableName_toList]
    intro hnil
    exact hne (String.ext (List.map_eq_nil_iff.mp hnil))
  cases hcl : (DatabaseHandler.cleanTableName tn).toList with
  | nil => exact absurd hcl hctne
  | cons c cs =>
    have hcword := clean_char_ascii_word tn hjascii
    have hcmem : c ∈ (DatabaseHandler.cleanTableName tn).toList := by
      rw [hcl]
      exact List.mem_cons_self c cs
    obtain ⟨hcascii, _⟩ := hcword c hcmem
    have hget : DatabaseHandler.get_table_name_from_path parts
        = (if pyIsAlpha c = true
            then some (DatabaseHandler.cleanTableName tn)
            else some ("f_" ++ DatabaseHandler.cleanTableName tn)) := by
      simp only [DatabaseHandler.get_table_name_from_path]
      rw [← htn, hcl]
    by_cases halpha : pyIsAlpha c = true
    · refine ⟨DatabaseHandler.cleanTableName tn, ?_, ?_⟩
      · rw [hget, if_pos halpha]
      · refine matchesAsciiIdent_of_toList _ c cs hcl
          (pyIsAlpha_ascii c hcascii halpha) ?_
        intro d hd
        have hdmem : d ∈ (DatabaseHandler.cleanTableName tn).toList := by
          rw [hcl]
          exact List.mem_cons_of_mem c hd
        exact (hcword d hdmem).2
    · refine ⟨"f_" ++ DatabaseHandler.cleanTableName tn, ?_, ?_⟩
      · rw [hget, if_neg halpha]
      · have htl : ("f_" ++ DatabaseHandler.cleanTableName tn).toList
            = 'f' :: '_' :: (DatabaseHandler.cleanTableName tn).toList := by
          show ("f_" ++ DatabaseHandler.cleanTableName tn).data
            = 'f' :: '_' :: (DatabaseHandler.cleanTableName tn).data
          rw [String.data_append]
          rfl
        refine matchesAsciiIdent_of_toList _ 'f'
          ('_' :: (DatabaseHandler.cleanTableName tn).toList) htl
          (by decide) ?_
        intro d hd
        rcases List.mem_cons.mp hd with rfl | hd2
        · decide
        · exact (hcword d hd2).2

/-- Witness for C6 (amended) at a concrete relative path. -/
theorem table_name_ascii_shape_witness :
    ∃ name, DatabaseHandler.get_table_name_from_path
        ["connections", "contacts", "synced_contacts.json"] = some name ∧
      matchesAsciiIdent name = true :=
  table_name_ascii_shape ["connections", "contacts", "synced_contacts.json"]
    (by decide) (by decide)
